import Mathlib

/-!
Verification of the Drive2-Crawler extraction-and-resume pipeline.

This file embeds, as executable Lean definitions, the parts of the crawler
that the specification claims talk about:

* the progress ledger (`ProgressTracker` class, file `progressTracker` module):
  the persisted data shape, `load`, `save`, `isReviewComplete`,
  `markReviewComplete`, `isPostProcessed`, `markPostProcessed`,
  `getProcessedCount`, `filterRemainingPosts`;
* the pipeline orchestrator (`main` of the ESM entry point): review step,
  post collection, filtering of remaining posts, and the per-post loop with
  its per-item error isolation;
* the post collector (`collectBlogPosts`): pagination with skip-on-failed-page;
* `navigateWithRetry`, `formatDate`, `createSafeFilename`, and the
  anchor-rewriting step of `convertHtmlToMarkdown` from the utils module.

External effects are made explicit: the outcome of fetching a URL is an
oracle function in an environment record (`some content` when the underlying
extraction resolves, `none` when it throws and the enclosing `try`/`catch`
of the loop iteration swallows the error), and the persisted
`.progress.json` file is the `file` component of `ProgressTracker`
(`Option ProgressData`, i.e. the parsed content of the last write, `none`
when nothing was ever written).
-/

/-- One element of the persisted `processedPosts` array: exactly the object
pushed by `ProgressTracker.markPostProcessed`
(`{ link, title, fileName }`). -/
structure ProcessedPost where
  link : String
  title : String
  fileName : String
deriving DecidableEq

/-- The persisted ledger shape (`this.data` of `ProgressTracker`, and the
JSON shape of `.progress.json`): a `reviewComplete` flag and the list of
processed posts. -/
structure ProgressData where
  reviewComplete : Bool
  processedPosts : List ProcessedPost
deriving DecidableEq

/-- The empty ledger: the value that the constructor of `ProgressTracker`
assigns to `this.data` (`reviewComplete: false, processedPosts: []`). -/
def ProgressData.empty : ProgressData :=
  { reviewComplete := false, processedPosts := [] }

/-- A post summary as produced by the post collector.  Of the scraped
record only the fields the verified claims depend on are modelled:
`title`, `link` (the identity key) and the optional `date` metadata field
(absent - `none` - when the listing card carried no recognizable date
tooltip). -/
structure PostSummary where
  title : String
  link : String
  date : Option String
deriving DecidableEq

/-- In-memory tracker state plus its persisted counterpart: `data` is
`this.data`; `file` is the parsed content of `.progress.json` on disk
(`none` when the file has never been written by this model). -/
structure ProgressTracker where
  data : ProgressData
  file : Option ProgressData
deriving DecidableEq

/-- A freshly constructed tracker (`new ProgressTracker(outputDir)`): data
starts out as the empty ledger; the path fields `outputDir`/`filePath` carry
no behaviour and are omitted. -/
def ProgressTracker.init : ProgressTracker :=
  { data := ProgressData.empty, file := none }

/-- The possible outcomes of reading and parsing `.progress.json` in
`ProgressTracker.load`: the file is missing, it cannot be read, its content
is not valid JSON, or it parses to an object whose two expected fields are
each either present or absent. -/
inductive LoadOutcome where
  | missing
  | unreadable
  | invalidJson
  | parsed (reviewComplete : Option Bool) (processedPosts : Option (List ProcessedPost))
deriving DecidableEq

/-- Operation `ProgressTracker.load`: on a successful read-and-parse it assigns
`progress.reviewComplete || false` and `progress.processedPosts || []` to
`this.data` and returns `true`; every failure (missing file, read error,
`JSON.parse` throwing) is caught, leaves `this.data` untouched and returns
`false`. -/
def ProgressTracker.load (t : ProgressTracker) : LoadOutcome → ProgressTracker × Bool
  | .parsed rc pp =>
      ({ t with data := { reviewComplete := rc.getD false, processedPosts := pp.getD [] } }, true)
  | _ => (t, false)

/-- Operation `ProgressTracker.save`: writes `JSON.stringify(this.data)` to
`.progress.json`; modelled as replacing the persisted content with the
current in-memory data. -/
def ProgressTracker.save (t : ProgressTracker) : ProgressTracker :=
  { t with file := some t.data }

/-- Operation `ProgressTracker.isReviewComplete`. -/
def ProgressTracker.isReviewComplete (t : ProgressTracker) : Bool :=
  t.data.reviewComplete

/-- Operation `ProgressTracker.markReviewComplete`: sets the flag, then saves. -/
def ProgressTracker.markReviewComplete (t : ProgressTracker) : ProgressTracker :=
  ProgressTracker.save { t with data := { t.data with reviewComplete := true } }

/-- Operation `ProgressTracker.isPostProcessed`:
`this.data.processedPosts.some(p => p.link === post.link)`. -/
def ProgressTracker.isPostProcessed (t : ProgressTracker) (post : PostSummary) : Bool :=
  t.data.processedPosts.any (fun p => p.link == post.link)

/-- Operation `ProgressTracker.markPostProcessed`: pushes the object of
link, title and file name
onto `processedPosts`, then saves. -/
def ProgressTracker.markPostProcessed (t : ProgressTracker) (post : PostSummary)
    (fileName : String) : ProgressTracker :=
  ProgressTracker.save
    { t with data :=
        { t.data with processedPosts :=
            t.data.processedPosts ++ [{ link := post.link, title := post.title, fileName := fileName }] } }

/-- Operation `ProgressTracker.getProcessedCount`. -/
def ProgressTracker.getProcessedCount (t : ProgressTracker) : Nat :=
  t.data.processedPosts.length

/-- Operation `ProgressTracker.filterRemainingPosts`:
`posts.filter(post => !this.isPostProcessed(post))`. -/
def ProgressTracker.filterRemainingPosts (t : ProgressTracker)
    (posts : List PostSummary) : List PostSummary :=
  posts.filter (fun post => !(t.isPostProcessed post))

/-- The `some`-test of `isPostProcessed` asks exactly whether the link
of the post occurs among the links recorded in the ledger. -/
theorem any_link_eq_contains (ps : List ProcessedPost) (x : String) :
    ps.any (fun p => p.link == x) = (ps.map ProcessedPost.link).contains x := by
  induction ps with
  | nil => rfl
  | cons p rest ih =>
      simp only [List.any_cons, List.map_cons, List.contains_cons, ih]
      by_cases h : p.link = x
      · simp [h]
      · rw [beq_eq_false_iff_ne.mpr h, beq_eq_false_iff_ne.mpr (Ne.symm h)]

/-- Fact: `isPostProcessed t p = true` exactly when some recorded entry carries
the link of `p`. -/
theorem isPostProcessed_iff (t : ProgressTracker) (p : PostSummary) :
    t.isPostProcessed p = true ↔ ∃ q ∈ t.data.processedPosts, q.link = p.link := by
  simp [ProgressTracker.isPostProcessed, List.any_eq_true]

/-- Claim C2: for every ledger state and every input list,
`filterRemainingPosts` returns exactly those input posts whose `link` does
not occur among the links recorded in `processedPosts`, and the result is a
sublist of the input (the relative order of the surviving posts is the
input order). -/
theorem claim_C2_filter_remaining (t : ProgressTracker) (posts : List PostSummary) :
    t.filterRemainingPosts posts
        = posts.filter (fun post => !((t.data.processedPosts.map ProcessedPost.link).contains post.link))
      ∧ List.Sublist (t.filterRemainingPosts posts) posts := by
  constructor
  · refine List.filter_congr ?_
    intro p _
    simp only [ProgressTracker.isPostProcessed, any_link_eq_contains]
  · exact List.filter_sublist posts

/-- Claim C7: `load()` fails soft.  For each of the three failure modes of
the `.progress.json` read (file missing, file unreadable, invalid JSON) the
`catch` branch is taken, the returned flag is `false`, and the ledger of the
tracker is the empty ledger (`reviewComplete = false`,
`processedPosts = []`), so a run proceeds as a fresh start; no failure
escapes `load`. -/
theorem claim_C7_load_fails_soft :
    ((ProgressTracker.init.load LoadOutcome.missing).1.data = ProgressData.empty
        ∧ (ProgressTracker.init.load LoadOutcome.missing).2 = false)
      ∧ ((ProgressTracker.init.load LoadOutcome.unreadable).1.data = ProgressData.empty
        ∧ (ProgressTracker.init.load LoadOutcome.unreadable).2 = false)
      ∧ ((ProgressTracker.init.load LoadOutcome.invalidJson).1.data = ProgressData.empty
        ∧ (ProgressTracker.init.load LoadOutcome.invalidJson).2 = false)
      ∧ ProgressData.empty.reviewComplete = false
      ∧ ProgressData.empty.processedPosts = [] :=
  ⟨⟨rfl, rfl⟩, ⟨rfl, rfl⟩, ⟨rfl, rfl⟩, rfl, rfl⟩

/-- Claim C10: frame conditions of the two ledger mutations.
`markReviewComplete` only flips the flag: the in-memory `processedPosts`
list is untouched and the file is rewritten with the same `processedPosts`
list; `markPostProcessed` appends exactly one `{link, title, fileName}`
entry: the flag and all previously recorded entries are unchanged both in
memory and in the persisted file. -/
theorem claim_C10_mutation_frames (t : ProgressTracker) (post : PostSummary) (fileName : String) :
    (t.markReviewComplete).data.processedPosts = t.data.processedPosts
      ∧ (t.markReviewComplete).data.reviewComplete = true
      ∧ (t.markReviewComplete).file
          = some { reviewComplete := true, processedPosts := t.data.processedPosts }
      ∧ (t.markPostProcessed post fileName).data.reviewComplete = t.data.reviewComplete
      ∧ (t.markPostProcessed post fileName).data.processedPosts
          = t.data.processedPosts
              ++ [{ link := post.link, title := post.title, fileName := fileName }]
      ∧ (t.markPostProcessed post fileName).file
          = some { reviewComplete := t.data.reviewComplete,
                   processedPosts :=
                     t.data.processedPosts
                       ++ [{ link := post.link, title := post.title, fileName := fileName }] } :=
  ⟨rfl, rfl, rfl, rfl, rfl, rfl⟩

/-- The character class `\d` of the date regexes (ASCII digits). -/
def isDigitChar (c : Char) : Bool :=
  c.isDigit

/-- The character class `\s` of JavaScript regexes (and the set trimmed by
`String.prototype.trim`): ASCII whitespace, NBSP, and the Unicode space
separators, line separators and BOM. -/
def isJsSpace (c : Char) : Bool :=
  c == ' ' || c == '\t' || c == '\n' || c == '\r'
    || c == Char.ofNat 0x0b || c == Char.ofNat 0x0c
    || c == Char.ofNat 0xa0 || c == Char.ofNat 0x1680
    || (decide (Char.ofNat 0x2000 ≤ c) && decide (c ≤ Char.ofNat 0x200a))
    || c == Char.ofNat 0x2028 || c == Char.ofNat 0x2029
    || c == Char.ofNat 0x202f || c == Char.ofNat 0x205f
    || c == Char.ofNat 0x3000 || c == Char.ofNat 0xfeff

/-- The character class `[а-яА-Я]` of the Russian-date regex: the two
Cyrillic codepoint ranges U+0430..U+044F and U+0410..U+042F (note this
matches the regex exactly: the letter ё lies outside both ranges). -/
def isRussianLetter (c : Char) : Bool :=
  (decide ('а' ≤ c) && decide (c ≤ 'я')) || (decide ('А' ≤ c) && decide (c ≤ 'Я'))

/-- Function `String.prototype.toLowerCase` restricted to what the captured month
word can contain: an uppercase Cyrillic letter А..Я is shifted to its
lowercase form; everything else is already lowercase. -/
def toLowerRussian (c : Char) : Char :=
  if 'А' ≤ c ∧ c ≤ 'Я' then Char.ofNat (c.toNat + 0x20) else c

/-- The fixed twelve-entry month table `russianMonths` of `formatDate`. -/
def russianMonths : List (String × String) :=
  [("января", "01"), ("февраля", "02"), ("марта", "03"), ("апреля", "04"),
   ("мая", "05"), ("июня", "06"), ("июля", "07"), ("августа", "08"),
   ("сентября", "09"), ("октября", "10"), ("ноября", "11"), ("декабря", "12")]

/-- The anchored ISO test `dateStr.match(/^(\d{4}-\d{2}-\d{2})/)`: when the
first ten characters are four digits, a hyphen, two digits, a hyphen and
two digits, the capture is those ten characters. -/
def isoDateMatch : List Char → Option (List Char)
  | y1 :: y2 :: y3 :: y4 :: '-' :: m1 :: m2 :: '-' :: d1 :: d2 :: _ =>
      if isDigitChar y1 && isDigitChar y2 && isDigitChar y3 && isDigitChar y4
          && isDigitChar m1 && isDigitChar m2 && isDigitChar d1 && isDigitChar d2 then
        some [y1, y2, y3, y4, '-', m1, m2, '-', d1, d2]
      else none
  | _ => none

/-- One attempt of the pattern `(\d{2})\.(\d{2})\.(\d{4})` at the current
position; all quantifiers are of fixed width, so the attempt is
deterministic. -/
def dotDateMatchAt : List Char → Option (List Char × List Char × List Char)
  | d1 :: d2 :: '.' :: m1 :: m2 :: '.' :: y1 :: y2 :: y3 :: y4 :: _ =>
      if isDigitChar d1 && isDigitChar d2 && isDigitChar m1 && isDigitChar m2
          && isDigitChar y1 && isDigitChar y2 && isDigitChar y3 && isDigitChar y4 then
        some ([d1, d2], [m1, m2], [y1, y2, y3, y4])
      else none
  | _ => none

/-- The unanchored search `dateStr.match(/(\d{2})\.(\d{2})\.(\d{4})/)`:
the leftmost position at which the pattern matches wins. -/
def findDotDate : List Char → Option (List Char × List Char × List Char)
  | [] => none
  | c :: rest =>
      match dotDateMatchAt (c :: rest) with
      | some r => some r
      | none => findDotDate rest

/-- Continuation of the Russian-date pattern
`(\d{1,2})\s+([а-яА-Я]+)\s+(\d{4})` after the day group has been fixed:
one-or-more whitespace, one-or-more Cyrillic letters, one-or-more
whitespace, four digits.  Each `+`-quantified class is disjoint from the
token that follows it, so consuming greedily is exact. -/
def russianAfterDay (day : List Char) (rest : List Char) :
    Option (List Char × List Char × List Char) :=
  let sp1 := rest.takeWhile isJsSpace
  if sp1.isEmpty then none
  else
    let rest1 := rest.drop sp1.length
    let word := rest1.takeWhile isRussianLetter
    if word.isEmpty then none
    else
      let rest2 := rest1.drop word.length
      let sp2 := rest2.takeWhile isJsSpace
      if sp2.isEmpty then none
      else
        match rest2.drop sp2.length with
        | y1 :: y2 :: y3 :: y4 :: _ =>
            if isDigitChar y1 && isDigitChar y2 && isDigitChar y3 && isDigitChar y4 then
              some (day, word, [y1, y2, y3, y4])
            else none
        | _ => none

/-- One attempt of `(\d{1,2})\s+([а-яА-Я]+)\s+(\d{4})` at the current
position: the greedy `\d{1,2}` first tries a two-digit day and falls back
to a one-digit day before the position is abandoned. -/
def russianDateMatchAt : List Char → Option (List Char × List Char × List Char)
  | [] => none
  | d1 :: rest =>
      if isDigitChar d1 then
        match rest with
        | d2 :: rest2 =>
            if isDigitChar d2 then
              match russianAfterDay [d1, d2] rest2 with
              | some r => some r
              | none => russianAfterDay [d1] rest
            else russianAfterDay [d1] rest
        | [] => russianAfterDay [d1] []
      else none

/-- The unanchored search for the Russian long-form date: leftmost match
wins. -/
def findRussianDate : List Char → Option (List Char × List Char × List Char)
  | [] => none
  | c :: rest =>
      match russianDateMatchAt (c :: rest) with
      | some r => some r
      | none => findRussianDate rest

/-- Padding `day.padStart(2, "0")` for a day group of one or two digits. -/
def padDay (day : List Char) : List Char :=
  if day.length = 1 then '0' :: day else day

/-- Function `formatDate` (utils module of the ESM variant): empty input is
`unknown-date`; otherwise the ISO prefix match, the `DD.MM.YYYY` search
and the Russian long-form search are tried in this order; a Russian match
whose (lowercased) month word is not in the twelve-entry table, or no
match at all, yields `unknown-date`. -/
def formatDate (dateStr : String) : String :=
  if dateStr = "" then "unknown-date"
  else
    match isoDateMatch dateStr.data with
    | some iso => String.mk iso
    | none =>
        match findDotDate dateStr.data with
        | some (dd, mm, yyyy) => String.mk (yyyy ++ '-' :: mm ++ '-' :: dd)
        | none =>
            match findRussianDate dateStr.data with
            | some (day, monthWord, year) =>
                match russianMonths.lookup (String.mk (monthWord.map toLowerRussian)) with
                | some monthNum => String.mk (year ++ '-' :: monthNum.data ++ '-' :: padDay day)
                | none => "unknown-date"
            | none => "unknown-date"

/-- The orchestrator calls `formatDate(post.date)` where `post.date` may be
absent; `formatDate` treats the absent (falsy) argument like the empty
string: `unknown-date`. -/
def formatDateOpt : Option String → String
  | none => "unknown-date"
  | some s => formatDate s

/-- The character class `[/\\?%*:|"<>]` of `createSafeFilename`. -/
def forbiddenFilenameChar (c : Char) : Bool :=
  c == '/' || c == '\\' || c == '?' || c == '%' || c == '*'
    || c == ':' || c == '|' || c == '"' || c == '<' || c == '>'

/-- Function `String.prototype.trim`: strips leading and trailing JavaScript
whitespace. -/
def jsTrim (s : String) : String :=
  String.mk (((s.data.dropWhile isJsSpace).reverse.dropWhile isJsSpace).reverse)

/-- Function `createSafeFilename`: each forbidden filename character is replaced by
a hyphen, then the result is trimmed. -/
def createSafeFilename (title : String) : String :=
  jsTrim (String.mk (title.data.map (fun c => if forbiddenFilenameChar c then '-' else c)))

/-- Claim C8: the `formatDate` round-trip contract on each of its branches:
a Russian long-form date is reassembled from the month table with the day
zero-padded, a `DD.MM.YYYY` pattern is reordered, an ISO-prefixed date
keeps its ten-character prefix, and empty or unrecognized input yields the
literal `unknown-date`. -/
theorem claim_C8_format_date :
    formatDate "19 января 2014 в 15:18" = "2014-01-19"
      ∧ formatDate "19.03.2014" = "2014-03-19"
      ∧ formatDate "2014-03-19T10:00:00+03:00" = "2014-03-19"
      ∧ formatDate "" = "unknown-date"
      ∧ formatDate "garbage" = "unknown-date" := by
  refine ⟨?_, ?_, ?_, ?_, ?_⟩ <;> decide

/-- The run environment of one pipeline invocation, holding the external
effects as oracles, fixed for the run ("no source changes"): `collected` is
the post list returned by `collectBlogPosts(carUrl)`; `fetchPost link` is
the outcome of `extractBlogPost(link)` (`some markdown` on success, `none`
when it throws, e.g. a navigation error after exhausted retries);
`fetchReview` is the outcome of `extractCarReview(carUrl)`. -/
structure RunEnv where
  collected : List PostSummary
  fetchPost : String → Option String
  fetchReview : Option String

/-- Observable state of one `main` run: the progress tracker, the number of
times `Home.md` was written, and the list of post file names written, in
write order. -/
structure PipelineState where
  tracker : ProgressTracker
  homeWrites : Nat
  postWrites : List String
deriving DecidableEq

/-- The per-post output file name computed by the orchestrator:
`` `${formatDate(post.date)} - ${createSafeFilename(post.title)}.md` ``. -/
def postFileName (post : PostSummary) : String :=
  formatDateOpt post.date ++ " - " ++ createSafeFilename post.title ++ ".md"

/-- The review step of `main`: when the ledger does not record a completed
review, attempt `extractCarReview`; on success write `Home.md` and
`markReviewComplete()`; on failure log and continue (no state change). -/
def runReviewStep (env : RunEnv) (st : PipelineState) : PipelineState :=
  if st.tracker.isReviewComplete = true then st
  else
    match env.fetchReview with
    | some _ =>
        { st with homeWrites := st.homeWrites + 1,
                  tracker := st.tracker.markReviewComplete }
    | none => st

/-- One iteration of the per-post loop of `main`: compute the file name,
fetch the post; on success write the file and `markPostProcessed`; on
failure the `catch` of this iteration logs and leaves all state unchanged,
and the loop continues with the next post. -/
def processPost (env : RunEnv) (st : PipelineState) (post : PostSummary) : PipelineState :=
  match env.fetchPost post.link with
  | some _ =>
      { st with postWrites := st.postWrites ++ [postFileName post],
                tracker := st.tracker.markPostProcessed post (postFileName post) }
  | none => st

/-- Initial state of a run that starts from ledger `t0`. -/
def initialState (t0 : ProgressTracker) : PipelineState :=
  { tracker := t0, homeWrites := 0, postWrites := [] }

/-- One full `main` run from ledger state `t0`: review step, then
`remainingPosts = progress.filterRemainingPosts(blogPosts)` computed once,
then the per-post loop over `remainingPosts` in order. -/
def runPipeline (env : RunEnv) (t0 : ProgressTracker) : PipelineState :=
  ((runReviewStep env (initialState t0)).tracker.filterRemainingPosts env.collected).foldl
    (processPost env) (runReviewStep env (initialState t0))

/-- The fetch of `post` succeeds in environment `env`. -/
def fetchSucceeds (env : RunEnv) (post : PostSummary) : Bool :=
  (env.fetchPost post.link).isSome

/-- The ledger entry recorded for a successfully processed post. -/
def processedEntry (post : PostSummary) : ProcessedPost :=
  { link := post.link, title := post.title, fileName := postFileName post }

/-- The ledger entries appended by a loop over `posts`: one entry per post
whose fetch succeeds, in input order. -/
def successEntries (env : RunEnv) (posts : List PostSummary) : List ProcessedPost :=
  (posts.filter (fetchSucceeds env)).map processedEntry

/-- Characterization of the per-post loop: it appends exactly the entries
of the successfully fetched posts to the ledger (in order), writes exactly
their files (in order), and leaves the review flag and the count of
`Home.md` writes untouched. -/
theorem foldl_processPost_spec (env : RunEnv) :
    ∀ (posts : List PostSummary) (st : PipelineState),
      (posts.foldl (processPost env) st).tracker.data.processedPosts
          = st.tracker.data.processedPosts ++ successEntries env posts
        ∧ (posts.foldl (processPost env) st).postWrites
            = st.postWrites ++ (posts.filter (fetchSucceeds env)).map postFileName
        ∧ (posts.foldl (processPost env) st).tracker.data.reviewComplete
            = st.tracker.data.reviewComplete
        ∧ (posts.foldl (processPost env) st).homeWrites = st.homeWrites := by
  intro posts
  induction posts with
  | nil => intro st; simp [successEntries]
  | cons p rest ih =>
      intro st
      have hfold : (p :: rest).foldl (processPost env) st
          = rest.foldl (processPost env) (processPost env st p) := rfl
      by_cases h : fetchSucceeds env p = true
      · obtain ⟨c, hc⟩ := Option.isSome_iff_exists.mp h
        have e1 : (processPost env st p).tracker.data.processedPosts
            = st.tracker.data.processedPosts ++ [processedEntry p] := by
          simp [processPost, hc, ProgressTracker.markPostProcessed,
            ProgressTracker.save, processedEntry]
        have e2 : (processPost env st p).postWrites = st.postWrites ++ [postFileName p] := by
          simp [processPost, hc]
        have e3 : (processPost env st p).tracker.data.reviewComplete
            = st.tracker.data.reviewComplete := by
          simp [processPost, hc, ProgressTracker.markPostProcessed, ProgressTracker.save]
        have e4 : (processPost env st p).homeWrites = st.homeWrites := by
          simp [processPost, hc]
        have hfc : List.filter (fetchSucceeds env) (p :: rest)
            = p :: List.filter (fetchSucceeds env) rest := by
          simp [List.filter_cons, h]
        obtain ⟨i1, i2, i3, i4⟩ := ih (processPost env st p)
        refine ⟨?_, ?_, ?_, ?_⟩
        · rw [hfold, i1, e1]
          simp [successEntries, List.filter_cons, h, List.append_assoc]
        · rw [hfold, i2, e2]
          simp [List.filter_cons, h, List.append_assoc]
        · rw [hfold, i3, e3]
        · rw [hfold, i4, e4]
      · have hn : env.fetchPost p.link = none :=
          Option.not_isSome_iff_eq_none.mp (by simpa [fetchSucceeds] using h)
        have hstep : processPost env st p = st := by simp [processPost, hn]
        have hfc : List.filter (fetchSucceeds env) (p :: rest)
            = List.filter (fetchSucceeds env) rest := by
          simp [List.filter_cons, h]
        obtain ⟨i1, i2, i3, i4⟩ := ih st
        rw [hfold, hstep]
        refine ⟨?_, ?_, i3, i4⟩
        · rw [i1]
          simp [successEntries, List.filter_cons, h]
        · rw [i2]
          simp [List.filter_cons, h]

/-- When the fetch of every remaining post fails, the loop is a no-op on
the whole pipeline state (the `catch` of each iteration swallows the
failure). -/
theorem foldl_processPost_skip (env : RunEnv) :
    ∀ (posts : List PostSummary) (st : PipelineState),
      (∀ p ∈ posts, env.fetchPost p.link = none) →
      posts.foldl (processPost env) st = st := by
  intro posts
  induction posts with
  | nil => intro st _; rfl
  | cons p rest ih =>
      intro st h
      have hp : env.fetchPost p.link = none := h p (by simp)
      have hstep : processPost env st p = st := by simp [processPost, hp]
      simpa [List.foldl_cons, hstep] using
        ih st (fun q hq => h q (by simp [hq]))

/-- The review step never touches the recorded posts or the post writes,
and the flag after it is `previous || review fetch succeeded`. -/
theorem runReviewStep_spec (env : RunEnv) (st : PipelineState) :
    (runReviewStep env st).tracker.data.processedPosts = st.tracker.data.processedPosts
      ∧ (runReviewStep env st).postWrites = st.postWrites
      ∧ (runReviewStep env st).tracker.data.reviewComplete
          = (st.tracker.data.reviewComplete || env.fetchReview.isSome) := by
  by_cases h : st.tracker.data.reviewComplete = true
  · have hh : st.tracker.isReviewComplete = true := by
      simpa [ProgressTracker.isReviewComplete] using h
    refine ⟨?_, ?_, ?_⟩ <;> simp [runReviewStep, hh, h]
  · have hb : st.tracker.data.reviewComplete = false := by simpa using h
    have hh : st.tracker.isReviewComplete = false := by
      simpa [ProgressTracker.isReviewComplete] using hb
    cases hr : env.fetchReview with
    | some c =>
        refine ⟨?_, ?_, ?_⟩ <;>
          simp [runReviewStep, hh, hr, ProgressTracker.markReviewComplete,
            ProgressTracker.save, hb]
    | none =>
        refine ⟨?_, ?_, ?_⟩ <;> simp [runReviewStep, hh, hr, hb]

/-- The review step is the identity when the flag is already set or the
review fetch fails. -/
theorem runReviewStep_id (env : RunEnv) (st : PipelineState)
    (h : st.tracker.data.reviewComplete = true ∨ env.fetchReview = none) :
    runReviewStep env st = st := by
  cases h with
  | inl h =>
      simp [runReviewStep, ProgressTracker.isReviewComplete, h]
  | inr h =>
      by_cases hc : st.tracker.isReviewComplete = true
      · simp [runReviewStep, hc]
      · simp [runReviewStep, hc, h]

/-- The recorded posts after a full run: the starting ledger followed by
one entry per successfully fetched remaining post, in order. -/
theorem runPipeline_processedPosts (env : RunEnv) (t0 : ProgressTracker) :
    (runPipeline env t0).tracker.data.processedPosts
      = t0.data.processedPosts
          ++ successEntries env
              ((runReviewStep env (initialState t0)).tracker.filterRemainingPosts env.collected) := by
  have h := (foldl_processPost_spec env
      ((runReviewStep env (initialState t0)).tracker.filterRemainingPosts env.collected)
      (runReviewStep env (initialState t0))).1
  have hr := (runReviewStep_spec env (initialState t0)).1
  rw [runPipeline, h, hr]
  rfl

/-- The review flag after a full run: it is set exactly when it was already
set or the review fetch of this run succeeded. -/
theorem runPipeline_flag (env : RunEnv) (t0 : ProgressTracker) :
    (runPipeline env t0).tracker.data.reviewComplete
      = (t0.data.reviewComplete || env.fetchReview.isSome) := by
  have h := (foldl_processPost_spec env
      ((runReviewStep env (initialState t0)).tracker.filterRemainingPosts env.collected)
      (runReviewStep env (initialState t0))).2.2.1
  have hr := (runReviewStep_spec env (initialState t0)).2.2
  rw [runPipeline, h, hr]
  rfl

/-- The post files written by a full run: one per successfully fetched
remaining post, in order. -/
theorem runPipeline_postWrites (env : RunEnv) (t0 : ProgressTracker) :
    (runPipeline env t0).postWrites
      = (((runReviewStep env (initialState t0)).tracker.filterRemainingPosts
            env.collected).filter (fetchSucceeds env)).map postFileName := by
  have h := (foldl_processPost_spec env
      ((runReviewStep env (initialState t0)).tracker.filterRemainingPosts env.collected)
      (runReviewStep env (initialState t0))).2.1
  have hr := (runReviewStep_spec env (initialState t0)).2.1
  rw [runPipeline, h, hr]
  rfl

/-- Every collected post whose fetch succeeds in this environment is
recorded in the ledger once the run finishes: either it was recorded
before the run started, or it survived the filter and its loop iteration
appended its entry. -/
theorem runPipeline_marks (env : RunEnv) (t0 : ProgressTracker) (p : PostSummary)
    (hp : p ∈ env.collected) (hs : fetchSucceeds env p = true) :
    (runPipeline env t0).tracker.isPostProcessed p = true := by
  apply (isPostProcessed_iff _ _).mpr
  rw [runPipeline_processedPosts]
  by_cases hA : (runReviewStep env (initialState t0)).tracker.isPostProcessed p = true
  · obtain ⟨q, hqmem, hql⟩ := (isPostProcessed_iff _ _).mp hA
    have hq0 : q ∈ t0.data.processedPosts := by
      rw [(runReviewStep_spec env (initialState t0)).1] at hqmem
      exact hqmem
    exact ⟨q, List.mem_append_left _ hq0, hql⟩
  · have hAf : (runReviewStep env (initialState t0)).tracker.isPostProcessed p = false := by
      simpa using hA
    have hmem : p ∈ (runReviewStep env (initialState t0)).tracker.filterRemainingPosts
        env.collected := by
      rw [ProgressTracker.filterRemainingPosts]
      exact List.mem_filter.mpr ⟨hp, by simp [hAf]⟩
    refine ⟨processedEntry p, List.mem_append_right _ ?_, rfl⟩
    rw [successEntries]
    exact List.mem_map.mpr ⟨p, List.mem_filter.mpr ⟨hmem, hs⟩, rfl⟩

/-- Claim C1: with a fixed environment (same collected post list, no source
changes), a second run from the ledger the first run left behind writes no
post file and leaves the whole tracker (flag, recorded posts, persisted
file) exactly as the first run left it; and when the fetch of every
collected post succeeds, this is because after the first run the link of
every collected post is recorded in `processedPosts`. -/
theorem claim_C1_second_run_idempotent (env : RunEnv) (t0 : ProgressTracker) :
    (runPipeline env (runPipeline env t0).tracker).postWrites = []
      ∧ (runPipeline env (runPipeline env t0).tracker).tracker = (runPipeline env t0).tracker
      ∧ ((∀ p ∈ env.collected, (env.fetchPost p.link).isSome = true) →
          ∀ p ∈ env.collected, (runPipeline env t0).tracker.isPostProcessed p = true) := by
  have hrev : runReviewStep env (initialState (runPipeline env t0).tracker)
      = initialState (runPipeline env t0).tracker := by
    apply runReviewStep_id
    cases hr : env.fetchReview with
    | none => exact Or.inr rfl
    | some c =>
        refine Or.inl ?_
        show (runPipeline env t0).tracker.data.reviewComplete = true
        rw [runPipeline_flag]
        simp [hr]
  have hskip : ∀ p ∈ (runPipeline env t0).tracker.filterRemainingPosts env.collected,
      env.fetchPost p.link = none := by
    intro p hp
    rw [ProgressTracker.filterRemainingPosts] at hp
    obtain ⟨hpc, hnp⟩ := List.mem_filter.mp hp
    have hfalse : (runPipeline env t0).tracker.isPostProcessed p = false := by
      simpa using hnp
    by_contra hne
    have hs : fetchSucceeds env p = true := Option.ne_none_iff_isSome.mp hne
    have hmark := runPipeline_marks env t0 p hpc hs
    rw [hmark] at hfalse
    exact absurd hfalse (by simp)
  have hrun2 : runPipeline env (runPipeline env t0).tracker
      = initialState (runPipeline env t0).tracker := by
    rw [runPipeline, hrev]
    exact foldl_processPost_skip env _ _ hskip
  refine ⟨?_, ?_, ?_⟩
  · rw [hrun2]; rfl
  · rw [hrun2]; rfl
  · intro hAll p hp
    exact runPipeline_marks env t0 p hp (hAll p hp)

/-- A collected post of the concrete scenarios (link 1, fetch succeeds). -/
def post1 : PostSummary :=
  { title := "P1", link := "https://www.drive2.ru/l/1/", date := none }

/-- A collected post of the concrete scenarios (link 2, fetch succeeds). -/
def post2 : PostSummary :=
  { title := "P2", link := "https://www.drive2.ru/l/2/", date := none }

/-- A collected post of the concrete scenarios (link 3, fetch fails). -/
def post3 : PostSummary :=
  { title := "P3", link := "https://www.drive2.ru/l/3/", date := none }

/-- A collected post of the concrete scenarios (link 4, fetch succeeds). -/
def post4 : PostSummary :=
  { title := "P4", link := "https://www.drive2.ru/l/4/", date := none }

/-- A collected post of the concrete scenarios (link 5, fetch succeeds). -/
def post5 : PostSummary :=
  { title := "P5", link := "https://www.drive2.ru/l/5/", date := none }

/-- Concrete environment of the partial-failure scenario: five collected
posts, fetching the third raises (after exhausted retries), every other
fetch succeeds. -/
def fivePostEnv : RunEnv :=
  { collected := [post1, post2, post3, post4, post5],
    fetchPost := fun link =>
      if link == "https://www.drive2.ru/l/3/" then none else some "markdown",
    fetchReview := none }

/-- Claim C4: per-item failure isolation of the post loop.  In general the
loop writes one file and appends one ledger entry per remaining post whose
fetch succeeds (in order) and records nothing for failed posts, and the
loop is a total function (the failure of every iteration is caught, so the run
completes without raising).  In the concrete five-post scenario whose
third post fails, exactly 4 files are written and exactly 4 entries
recorded - all but the third. -/
theorem claim_C4_partial_failure_isolation (env : RunEnv) (st : PipelineState)
    (posts : List PostSummary) :
    (posts.foldl (processPost env) st).tracker.data.processedPosts
        = st.tracker.data.processedPosts ++ successEntries env posts
      ∧ (posts.foldl (processPost env) st).postWrites
          = st.postWrites ++ (posts.filter (fetchSucceeds env)).map postFileName
      ∧ (runPipeline fivePostEnv ProgressTracker.init).postWrites.length = 4
      ∧ (runPipeline fivePostEnv ProgressTracker.init).tracker.data.processedPosts.length = 4
      ∧ (runPipeline fivePostEnv ProgressTracker.init).tracker.data.processedPosts.map
            ProcessedPost.link
          = [post1.link, post2.link, post4.link, post5.link] := by
  refine ⟨(foldl_processPost_spec env posts st).1,
    (foldl_processPost_spec env posts st).2.1, ?_, ?_, ?_⟩ <;> decide

/-- Environment whose collected list contains the same link twice, both
fetches succeeding. -/
def dupEnv : RunEnv :=
  { collected := [post1, post1],
    fetchPost := fun _ => some "markdown",
    fetchReview := none }

/-- Claim C3 counterexample: the pipeline does not deduplicate inside one
run.  `remainingPosts` is computed once before the loop and the loop never
re-checks `isPostProcessed`, so a collected list that contains the same
link twice gets that link recorded twice: the claimed uniqueness invariant
fails. -/
theorem claim_C3_counterexample :
    dupEnv.collected.map PostSummary.link
        = ["https://www.drive2.ru/l/1/", "https://www.drive2.ru/l/1/"]
      ∧ (runPipeline dupEnv ProgressTracker.init).tracker.data.processedPosts.map
            ProcessedPost.link
          = ["https://www.drive2.ru/l/1/", "https://www.drive2.ru/l/1/"]
      ∧ ¬ ((runPipeline dupEnv ProgressTracker.init).tracker.data.processedPosts.map
            ProcessedPost.link).Nodup := by
  refine ⟨?_, ?_, ?_⟩ <;> decide

/-- Claim C3 (amended): when the collected post list itself has no two
posts with the same link and the links of the starting ledger are distinct,
the links of the ledger remain pairwise distinct after a run: the run appends
at most one entry per distinct remaining link, and only for links not yet
recorded. -/
theorem claim_C3_amended_links_nodup (env : RunEnv) (t0 : ProgressTracker)
    (h1 : (env.collected.map PostSummary.link).Nodup)
    (h2 : (t0.data.processedPosts.map ProcessedPost.link).Nodup) :
    ((runPipeline env t0).tracker.data.processedPosts.map ProcessedPost.link).Nodup := by
  rw [runPipeline_processedPosts, List.map_append]
  have hmm : (successEntries env
        ((runReviewStep env (initialState t0)).tracker.filterRemainingPosts
          env.collected)).map ProcessedPost.link
      = (((runReviewStep env (initialState t0)).tracker.filterRemainingPosts
          env.collected).filter (fetchSucceeds env)).map PostSummary.link := by
    rw [successEntries, List.map_map]
    rfl
  have hsub : List.Sublist
      (((runReviewStep env (initialState t0)).tracker.filterRemainingPosts
          env.collected).filter (fetchSucceeds env)) env.collected :=
    (List.filter_sublist _).trans
      (show List.Sublist ((runReviewStep env (initialState t0)).tracker.filterRemainingPosts
          env.collected) env.collected from List.filter_sublist _)
  refine List.nodup_append.mpr ⟨h2, ?_, ?_⟩
  · rw [hmm]
    exact List.Nodup.sublist (List.Sublist.map PostSummary.link hsub) h1
  · intro x hx1 hx2
    rw [hmm] at hx2
    obtain ⟨p, hpf, hpl⟩ := List.mem_map.mp hx2
    obtain ⟨hpR1, _⟩ := List.mem_filter.mp hpf
    rw [ProgressTracker.filterRemainingPosts] at hpR1
    obtain ⟨hpc, hnp⟩ := List.mem_filter.mp hpR1
    have hAfalse : (runReviewStep env (initialState t0)).tracker.isPostProcessed p = false := by
      simpa using hnp
    obtain ⟨q, hq0, hql⟩ := List.mem_map.mp hx1
    have hqA : q ∈ (runReviewStep env (initialState t0)).tracker.data.processedPosts := by
      rw [(runReviewStep_spec env (initialState t0)).1]
      exact hq0
    have hAtrue : (runReviewStep env (initialState t0)).tracker.isPostProcessed p = true :=
      (isPostProcessed_iff _ _).mpr ⟨q, hqA, hql.trans hpl.symm⟩
    rw [hAtrue] at hAfalse
    exact absurd hAfalse (by simp)

/-- Environment with two distinct-link posts, both fetches succeeding
(used to witness the amended C3 and the idempotence claim). -/
def twoPostEnv : RunEnv :=
  { collected := [post1, post2],
    fetchPost := fun _ => some "markdown",
    fetchReview := none }

/-- Witness for the amended claim C3 at a concrete input: two distinct
collected links, empty starting ledger; the hypotheses hold by computation
and the links of the final ledger are distinct. -/
theorem claim_C3_amended_links_nodup_witness :
    (twoPostEnv.collected.map PostSummary.link).Nodup
      ∧ (ProgressTracker.init.data.processedPosts.map ProcessedPost.link).Nodup
      ∧ ((runPipeline twoPostEnv ProgressTracker.init).tracker.data.processedPosts.map
            ProcessedPost.link).Nodup :=
  ⟨by decide, by decide,
    claim_C3_amended_links_nodup twoPostEnv ProgressTracker.init (by decide) (by decide)⟩

/-- Witness for claim C1 at a concrete input: two posts, both fetches
succeed; the second run writes nothing, the tracker is unchanged, and both
collected posts are recorded after the first run. -/
theorem claim_C1_second_run_idempotent_witness :
    (runPipeline twoPostEnv (runPipeline twoPostEnv ProgressTracker.init).tracker).postWrites = []
      ∧ (runPipeline twoPostEnv (runPipeline twoPostEnv ProgressTracker.init).tracker).tracker
          = (runPipeline twoPostEnv ProgressTracker.init).tracker
      ∧ (runPipeline twoPostEnv ProgressTracker.init).tracker.isPostProcessed post1 = true := by
  obtain ⟨a, b, c⟩ := claim_C1_second_run_idempotent twoPostEnv ProgressTracker.init
  exact ⟨a, b, c (by decide) post1 (by decide)⟩

/-- Environment of one `collectBlogPosts` run: `nav k` says whether
navigation to page `k` (the initial navigation for page 1, the
`navigateWithRetry(page, url?page=k)` call for later pages) succeeds after
its retries; `postsOn k` is the post list `extractPostsFromPage` produces
from the rendered page `k` (the empty list when extraction itself fails,
which `extractPostsFromPage` catches); `totalPages` is the page count read
once from the pagination markers of page 1. -/
structure CollectEnv where
  nav : Nat → Bool
  postsOn : Nat → List PostSummary
  totalPages : Nat

/-- One iteration of the page loop of `collectBlogPosts`: page 1 is
already loaded by the initial navigation; for a later page the loop
delays, navigates with retry, and on navigation failure logs and
`continue`s (the page contributes nothing); the posts of a loaded page are
appended to the accumulator. -/
def collectPageStep (env : CollectEnv) (allPosts : List PostSummary) (pageNum : Nat) :
    List PostSummary :=
  if pageNum = 1 then allPosts ++ env.postsOn pageNum
  else if env.nav pageNum = true then allPosts ++ env.postsOn pageNum
  else allPosts

/-- Function `collectBlogPosts`: navigate to the root listing page (a failure here
propagates), read the page count, then run the page loop for pages
`1..totalPages` accumulating posts in page order. -/
def collectBlogPosts (env : CollectEnv) : Except String (List PostSummary) :=
  if env.nav 1 = true then
    Except.ok ((List.range' 1 env.totalPages).foldl (collectPageStep env) [])
  else Except.error "NavigationError"

/-- The page loop appends exactly the posts of the loaded pages (page 1
plus each later page whose navigation succeeded), in page order. -/
theorem collectPageStep_foldl (env : CollectEnv) :
    ∀ (pages : List Nat) (acc : List PostSummary),
      pages.foldl (collectPageStep env) acc
        = acc ++ (pages.filter (fun k => k == 1 || env.nav k)).flatMap env.postsOn := by
  intro pages
  induction pages with
  | nil => intro acc; simp
  | cons k rest ih =>
      intro acc
      by_cases h1 : k = 1
      · have hstep : collectPageStep env acc k = acc ++ env.postsOn k := by
          simp [collectPageStep, h1]
        have hpred : (k == 1 || env.nav k) = true := by simp [h1]
        simp [List.foldl_cons, hstep, ih, List.filter_cons, hpred, List.append_assoc]
      · by_cases h2 : env.nav k = true
        · have hstep : collectPageStep env acc k = acc ++ env.postsOn k := by
            simp [collectPageStep, h1, h2]
          have hpred : (k == 1 || env.nav k) = true := by simp [h2]
          simp [List.foldl_cons, hstep, ih, List.filter_cons, hpred, List.append_assoc]
        · have hstep : collectPageStep env acc k = acc := by
            simp [collectPageStep, h1, h2]
          have hpred : (k == 1 || env.nav k) = false := by
            simp [h1, h2]
          simp [List.foldl_cons, hstep, ih, List.filter_cons, hpred]

/-- Concrete three-page listing whose page 2 navigation fails after
retries: page 1 carries two posts, page 2 one post, page 3 one post. -/
def threePageEnv : CollectEnv :=
  { nav := fun pageNum => !(pageNum == 2),
    postsOn := fun pageNum =>
      if pageNum = 1 then [post1, post2]
      else if pageNum = 2 then [post3]
      else if pageNum = 3 then [post4]
      else [],
    totalPages := 3 }

/-- Claim C5: when the root page loads, collection returns, in ascending
page order, the concatenation of the posts of exactly those pages that
loaded (page 1 and every later page whose navigation with retry
succeeded); a page whose navigation exhausts its retries contributes
nothing and the loop continues with the next page number.  In the concrete
three-page scenario whose page 2 fails, the result is exactly the posts
of page 1 followed by the posts of page 3. -/
theorem claim_C5_failed_page_skipped (env : CollectEnv) (h : env.nav 1 = true) :
    collectBlogPosts env
        = Except.ok (((List.range' 1 env.totalPages).filter
            (fun k => k == 1 || env.nav k)).flatMap env.postsOn)
      ∧ collectBlogPosts threePageEnv
          = Except.ok (threePageEnv.postsOn 1 ++ threePageEnv.postsOn 3) := by
  constructor
  · rw [collectBlogPosts, if_pos h, collectPageStep_foldl]
    rw [List.nil_append]
  · rfl

/-- Witness for claim C5: the concrete three-page environment satisfies
the root-page hypothesis, and the general page-order formula holds of it. -/
theorem claim_C5_failed_page_skipped_witness :
    threePageEnv.nav 1 = true
      ∧ collectBlogPosts threePageEnv
          = Except.ok (((List.range' 1 threePageEnv.totalPages).filter
              (fun k => k == 1 || threePageEnv.nav k)).flatMap threePageEnv.postsOn) :=
  ⟨by decide, (claim_C5_failed_page_skipped threePageEnv (by decide)).1⟩

/-- The default error thrown when the retry loop somehow has no recorded
last error, an `Error` carrying the message `Failed to navigate to page
after multiple attempts`. -/
def failNavMsg : String := "Failed to navigate to page after multiple attempts"

/-- JavaScript `options.x || dflt` for a numeric option: an absent option
and the (falsy) value 0 both fall back to the default. -/
def orDefaultNat (o : Option Nat) (dflt : Nat) : Nat :=
  match o with
  | none => dflt
  | some 0 => dflt
  | some n => n

/-- The `while (retries > 0 && !success)` loop of `navigateWithRetry`:
`goto i` is the outcome of the `page.goto` call of attempt `i` (`none`
when it resolves, `some e` when it throws error message `e`).  Arguments:
remaining retries, attempt index, last recorded error, milliseconds waited
so far (each failed attempt waits `retryDelay` before the loop re-tests
its condition).  Returns the overall outcome (`ok true` on success, the
last error when the retries are exhausted) and the total wait. -/
def navigateWithRetryGo (goto : Nat → Option String) (retryDelay : Nat) :
    Nat → Nat → Option String → Nat → Except String Bool × Nat
  | 0, _, lastError, waited => (Except.error (lastError.getD failNavMsg), waited)
  | retries + 1, attempt, _lastError, waited =>
      match goto attempt with
      | none => (Except.ok true, waited)
      | some e => navigateWithRetryGo goto retryDelay retries (attempt + 1) (some e)
          (waited + retryDelay)

/-- Function `navigateWithRetry`: up to `options.maxRetries || 3` attempts with a
fixed `options.retryDelay || 3000` milliseconds wait after each failed
attempt; returns `true` as soon as one attempt succeeds and throws the
last recorded navigation error when all attempts failed. -/
def navigateWithRetry (goto : Nat → Option String)
    (maxRetries retryDelay : Option Nat) : Except String Bool × Nat :=
  navigateWithRetryGo goto (orDefaultNat retryDelay 3000) (orDefaultNat maxRetries 3) 0 none 0

/-- The retry loop succeeds as soon as one attempt succeeds: if the first
`k` attempts from index `i` fail and attempt `i + k` succeeds within the
remaining budget `r`, the loop returns `ok true` after `k` waits. -/
theorem navigateWithRetryGo_succeeds (goto : Nat → Option String) (d : Nat) :
    ∀ (k r i : Nat) (lastError : Option String) (w : Nat), k < r →
      (∀ j, j < k → (goto (i + j)).isSome = true) → goto (i + k) = none →
      navigateWithRetryGo goto d r i lastError w = (Except.ok true, w + k * d) := by
  intro k
  induction k with
  | zero =>
      intro r i lastError w hr _ hk
      obtain ⟨r', rfl⟩ := Nat.exists_eq_succ_of_ne_zero (Nat.pos_iff_ne_zero.mp hr)
      have h0 : goto i = none := by simpa using hk
      simp [navigateWithRetryGo, h0]
  | succ k ih =>
      intro r i lastError w hr hj hk
      obtain ⟨r', rfl⟩ := Nat.exists_eq_succ_of_ne_zero
        (Nat.pos_iff_ne_zero.mp (Nat.lt_of_le_of_lt (Nat.zero_le _) hr))
      have h0 : (goto (i + 0)).isSome = true := hj 0 (Nat.succ_pos k)
      obtain ⟨e, he⟩ := Option.isSome_iff_exists.mp h0
      have he' : goto i = some e := by simpa using he
      have step : navigateWithRetryGo goto d (r' + 1) i lastError w
          = navigateWithRetryGo goto d r' (i + 1) (some e) (w + d) := by
        simp [navigateWithRetryGo, he']
      rw [step, ih r' (i + 1) (some e) (w + d) (Nat.lt_of_succ_lt_succ hr)
        (fun j hjk => by
          have := hj (j + 1) (Nat.succ_lt_succ hjk)
          rwa [show i + (j + 1) = i + 1 + j by omega] at this)
        (by rwa [show i + 1 + k = i + (k + 1) by omega])]
      have : w + d + k * d = w + (k + 1) * d := by
        rw [Nat.succ_mul]; omega
      rw [this]

/-- The retry loop exhausted: if all `r` attempts from index `i` fail, the
loop returns the error of the last attempt after `r` waits. -/
theorem navigateWithRetryGo_exhausts (goto : Nat → Option String) (d : Nat) :
    ∀ (r i : Nat) (lastError : Option String) (w : Nat), 0 < r →
      (∀ j, j < r → (goto (i + j)).isSome = true) →
      navigateWithRetryGo goto d r i lastError w
        = (Except.error ((goto (i + r - 1)).getD failNavMsg), w + r * d) := by
  intro r
  induction r with
  | zero => intro i lastError w hr; exact absurd hr (by simp)
  | succ r ih =>
      intro i lastError w _ hj
      have h0 : (goto (i + 0)).isSome = true := hj 0 (Nat.succ_pos r)
      obtain ⟨e, he⟩ := Option.isSome_iff_exists.mp h0
      have he' : goto i = some e := by simpa using he
      have step : navigateWithRetryGo goto d (r + 1) i lastError w
          = navigateWithRetryGo goto d r (i + 1) (some e) (w + d) := by
        simp [navigateWithRetryGo, he']
      rcases Nat.eq_zero_or_pos r with hz | hpos
      · subst hz
        rw [step]
        simp [navigateWithRetryGo, he', Nat.one_mul]
      · rw [step, ih (i + 1) (some e) (w + d) hpos
          (fun j hjr => by
            have := hj (j + 1) (Nat.succ_lt_succ hjr)
            rwa [show i + (j + 1) = i + 1 + j by omega] at this)]
        have hidx : i + 1 + r - 1 = i + (r + 1) - 1 := by omega
        have hsum : w + d + r * d = w + (r + 1) * d := by
          rw [Nat.succ_mul]; omega
        rw [hidx, hsum]

/-- Claim C6: `navigateWithRetry` makes up to `maxRetries` attempts
(default 3) with a fixed wait of `retryDelay` milliseconds (default 3000)
after each failed attempt, returns `true` as soon as one navigation
attempt succeeds, and when every attempt fails it throws the error of the
last attempt. -/
theorem claim_C6_navigate_with_retry (goto : Nat → Option String)
    (maxRetries retryDelay : Option Nat) :
    (∀ k, k < orDefaultNat maxRetries 3 →
        (∀ j, j < k → (goto j).isSome = true) → goto k = none →
        navigateWithRetry goto maxRetries retryDelay
          = (Except.ok true, k * orDefaultNat retryDelay 3000))
      ∧ ((∀ j, j < orDefaultNat maxRetries 3 → (goto j).isSome = true) →
          navigateWithRetry goto maxRetries retryDelay
            = (Except.error ((goto (orDefaultNat maxRetries 3 - 1)).getD failNavMsg),
               orDefaultNat maxRetries 3 * orDefaultNat retryDelay 3000))
      ∧ orDefaultNat none 3 = 3 ∧ orDefaultNat none 3000 = 3000 := by
  refine ⟨?_, ?_, rfl, rfl⟩
  · intro k hk hj hgoto
    rw [navigateWithRetry]
    have := navigateWithRetryGo_succeeds goto (orDefaultNat retryDelay 3000) k
      (orDefaultNat maxRetries 3) 0 none 0 hk
      (fun j hjk => by simpa using hj j hjk) (by simpa using hgoto)
    rw [this]
    simp
  · intro hj
    have hpos : 0 < orDefaultNat maxRetries 3 := by
      cases maxRetries with
      | none => decide
      | some n => cases n with
        | zero => decide
        | succ m => simp [orDefaultNat]
    rw [navigateWithRetry]
    have := navigateWithRetryGo_exhausts goto (orDefaultNat retryDelay 3000)
      (orDefaultNat maxRetries 3) 0 none 0 hpos
      (fun j hjr => by simpa using hj j hjr)
    rw [this]
    simp

/-- Navigation oracle whose every attempt fails with the same error. -/
def alwaysFailNav : Nat → Option String := fun _ => some "net::ERR_TIMED_OUT"

/-- Navigation oracle whose first attempt fails and second attempt
succeeds. -/
def secondTryNav : Nat → Option String := fun attempt =>
  if attempt = 0 then some "net::ERR_TIMED_OUT" else none

/-- Witness for claim C6 at concrete inputs and default options: three
failing attempts throw the last error after three 3000 ms waits; a success
on the second attempt returns `true` after one wait. -/
theorem claim_C6_navigate_with_retry_witness :
    navigateWithRetry alwaysFailNav none none = (Except.error "net::ERR_TIMED_OUT", 9000)
      ∧ navigateWithRetry secondTryNav none none = (Except.ok true, 3000) := by
  constructor
  · have h := (claim_C6_navigate_with_retry alwaysFailNav none none).2.1 (by decide)
    rw [h]
    rfl
  · have h := (claim_C6_navigate_with_retry secondTryNav none none).1 1 (by decide)
      (by decide) (by decide)
    rw [h]
    rfl

/-- Test that `pre` is a prefix of `s` (character-wise, the semantics of JavaScript
`String.prototype.startsWith`). -/
def strStartsWith (s pre : String) : Bool :=
  pre.data.isPrefixOf s.data

/-- The body of the anchor replacement callback of `convertHtmlToMarkdown`
(utils module): a captured href that is truthy (non-empty) and starts with
none of `http`, `#`, `mailto:` is treated as relative and resolved against
the base URL - a leading-slash href gets the base URL prepended directly,
any other relative href becomes `baseUrl + "/" + href`; every other href
is left unchanged. -/
def resolveAnchorHref (baseUrl url : String) : String :=
  if url != "" && !(strStartsWith url "http") && !(strStartsWith url "#")
      && !(strStartsWith url "mailto:") then
    if strStartsWith url "/" then baseUrl ++ url else baseUrl ++ "/" ++ url
  else url

/-- The literal `href="` of the anchor regex. -/
def hrefToken : List Char := ['h', 'r', 'e', 'f', '=', '"']

/-- The literal `</a>` that ends the lazily matched anchor text. -/
def closeAnchorToken : List Char := ['<', '/', 'a', '>']

/-- Index of the first occurrence of `pat` in `l` (the landing point of a
lazy `(.*?)` followed by the literal `pat`). -/
def findSubIdx (pat : List Char) : List Char → Option Nat
  | [] => if pat.isEmpty then some 0 else none
  | c :: rest =>
      if pat.isPrefixOf (c :: rest) then some 0
      else (findSubIdx pat rest).map (· + 1)

/-- One attempt of the anchor pattern
`<a[^>]*href="([^"]*)"[^>]*>(.*?)</a>` with the `[^>]*` before `href="`
fixed at width `q` (`afterTag` is the input just after the literal `<a`):
check the `q` skipped characters contain no `>` and are followed by the
literal `href="`, capture the href up to the closing quote, skip to the
end of the tag, and capture the anchor text lazily up to the first
`</a>`.  On success, returns the produced Markdown link
`[text](resolvedHref)` and the rest of the input. -/
def anchorTryAt (baseUrl : List Char) (afterTag : List Char) (q : Nat) :
    Option (List Char × List Char) :=
  if (afterTag.take q).all (fun c => !(c == '>'))
      && hrefToken.isPrefixOf (afterTag.drop q) then
    let afterHref := afterTag.drop (q + hrefToken.length)
    let url := afterHref.takeWhile (fun c => !(c == '"'))
    match afterHref.drop url.length with
    | '"' :: rest1 =>
        let skip := rest1.takeWhile (fun c => !(c == '>'))
        match rest1.drop skip.length with
        | '>' :: rest2 =>
            match findSubIdx closeAnchorToken rest2 with
            | some j =>
                some ('[' :: rest2.take j
                      ++ ']' :: '(' :: (resolveAnchorHref (String.mk baseUrl) (String.mk url)).data
                      ++ [')'],
                  rest2.drop (j + closeAnchorToken.length))
            | none => none
        | _ => none
    | _ => none
  else none

/-- The greedy `[^>]*` before `href="`: widths are tried from the largest
down (the regex engine backtracks from the maximal munch), the first width
whose continuation succeeds wins. -/
def anchorTryFrom (baseUrl afterTag : List Char) : Nat → Option (List Char × List Char)
  | 0 => anchorTryAt baseUrl afterTag 0
  | q + 1 =>
      match anchorTryAt baseUrl afterTag (q + 1) with
      | some r => some r
      | none => anchorTryFrom baseUrl afterTag q

/-- One attempt of the full anchor pattern at the current position: the
literal `<a`, then the backtracking search for `href="` within the run of
non-`>` characters that follows. -/
def anchorMatchAt (baseUrl : List Char) : List Char → Option (List Char × List Char)
  | '<' :: 'a' :: afterTag =>
      anchorTryFrom baseUrl afterTag (afterTag.takeWhile (fun c => !(c == '>'))).length
  | _ => none

/-- The global anchor replacement: scan left to right; at each position
either replace a match (and continue after it - the replacement is not
rescanned) or emit the character and move on.  The fuel argument is the
input length; every step consumes at least one input character, so the
fuel never runs out on the initial call. -/
def anchorReplaceGo (baseUrl : List Char) : Nat → List Char → List Char
  | 0, l => l
  | _ + 1, [] => []
  | fuel + 1, c :: rest =>
      match anchorMatchAt baseUrl (c :: rest) with
      | some (repl, remaining) => repl ++ anchorReplaceGo baseUrl fuel remaining
      | none => c :: anchorReplaceGo baseUrl fuel rest

/-- The anchor-handling step of `convertHtmlToMarkdown`: the global
replace of `<a[^>]*href="([^"]*)"[^>]*>(.*?)</a>` by
`[text](resolvedHref)` with the href resolved by the callback modelled in
`resolveAnchorHref`. -/
def replaceAnchorTags (baseUrl html : String) : String :=
  String.mk (anchorReplaceGo baseUrl.data html.data.length html.data)

/-- A character that may occur in a URI scheme (RFC 3986: letters, digits,
plus, minus, dot). -/
def isSchemeChar (c : Char) : Bool :=
  c.isAlpha || c.isDigit || c == '+' || c == '-' || c == '.'

/-- Modelled from the spec: the claim describes a relative href as one
that "does not start with a scheme, `#`, or `mailto:`".  This decides
whether a URL begins with a URI scheme in the standard (RFC 3986) sense:
a letter, followed by letters/digits/`+`/`-`/`.`, followed by a colon. -/
def startsWithUriScheme (url : String) : Bool :=
  match url.data.takeWhile isSchemeChar, url.data.drop (url.data.takeWhile isSchemeChar).length with
  | c :: _, ':' :: _ => c.isAlpha
  | _, _ => false

/-- Claim C9 counterexample: the code tests the literal prefix `http`, not
"a scheme".  The href `ftp://files.example.com/a` starts with a scheme,
so by the claim it must be left unchanged; the code treats it as relative
and prepends the base URL.  Likewise the empty href carries no scheme,
`#` or `mailto:`, so by the claim it should be resolved against the base
URL; the code (whose callback tests the href for truthiness first) leaves
it unchanged. -/
theorem claim_C9_counterexample :
    startsWithUriScheme "ftp://files.example.com/a" = true
      ∧ replaceAnchorTags "https://h" "<a href=\"ftp://files.example.com/a\">t</a>"
          = "[t](https://h/ftp://files.example.com/a)"
      ∧ "[t](https://h/ftp://files.example.com/a)" ≠ "[t](ftp://files.example.com/a)"
      ∧ startsWithUriScheme "" = false
      ∧ strStartsWith "" "#" = false
      ∧ strStartsWith "" "mailto:" = false
      ∧ replaceAnchorTags "https://h" "<a href=\"\">t</a>" = "[t]()"
      ∧ "[t]()" ≠ "[t](https://h/)" := by
  refine ⟨?_, ?_, ?_, ?_, ?_, ?_, ?_, ?_⟩ <;> decide

/-- Claim C9 (amended): in the anchor step of `convertHtmlToMarkdown`
every anchor tag becomes a Markdown link `[text](url)` whose URL is
resolved against the supplied base URL exactly when the href is non-empty
and starts with none of the literal prefixes `http`, `#` and `mailto:`:
a leading-slash href gets the base URL prepended directly, every other
such href becomes `baseUrl + "/" + href`, and all remaining hrefs
(including every `http`-prefixed absolute URL and the empty href) are
left unchanged. -/
theorem claim_C9_anchor_resolution :
    replaceAnchorTags "https://h" "<a href=\"/x\">t</a>" = "[t](https://h/x)"
      ∧ replaceAnchorTags "https://h" "<a href=\"y/z\">t</a>" = "[t](https://h/y/z)"
      ∧ replaceAnchorTags "https://h" "<a href=\"https://other.example/p\">t</a>"
          = "[t](https://other.example/p)"
      ∧ replaceAnchorTags "https://h" "<a href=\"#frag\">t</a>" = "[t](#frag)"
      ∧ replaceAnchorTags "https://h" "<a href=\"mailto:a@b.c\">t</a>" = "[t](mailto:a@b.c)"
      ∧ replaceAnchorTags "https://h" "<a href=\"\">t</a>" = "[t]()"
      ∧ replaceAnchorTags "https://h" "before <a class=\"q\" href=\"/x\">link text</a> after"
          = "before [link text](https://h/x) after" := by
  refine ⟨?_, ?_, ?_, ?_, ?_, ?_, ?_⟩ <;> decide
